import Mathlib

set_option maxRecDepth 16000

/-!
# TrichoScout — formal model of the feed-polling core

A shallow embedding of `src/TrichoScout.py`: the seen-set store
(`load_seen_ids` / `save_seen_ids`), the post-id extraction of `parse_rss`,
the match filter (`is_sold`, `match_keywords`), and the poll-cycle
controller `check` with its pagination loop.

Modelling conventions:
* Timestamps are `Int` (seconds); the fallible ISO-8601 parse
  `datetime.fromisoformat(...).timestamp()` is an explicit parameter
  `parseTs : String → Option Int` (`none` = the `except` branch).
* The in-memory Python `set` named `seen` is carried as a duplicate-free
  `List String` recording insertion order; membership and `add` agree with
  the Python set.  Python guarantees no iteration order for a `set`, so
  `list(seen)` is modelled as an arbitrary permutation `enum` of that
  carrier, universally quantified where it matters.
* The `while True` loop of `check` runs on explicit fuel; fuel exhaustion
  yields `none` (an incomplete cycle), so theorems about completed cycles
  condition on a `some` result.
* Strings are manipulated through their `List Char` data, matching
  Python's per-code-point string indexing and slicing.
-/

namespace TrichoScout

/-- One feed entry, as produced by `parse_rss` (the `comments` field,
filled only later by enrichment, is irrelevant to the claims and omitted). -/
structure Post where
  id : String
  title : String
  url : String
  author : String
  published : String
  content : String
deriving DecidableEq, Repr

/-! ## Seen-set store -/

/-- `seen.add(x)` on the insertion-ordered carrier of the Python set. -/
def setAdd (s : List String) (x : String) : List String :=
  if s.contains x then s else s ++ [x]

/-- `save_seen_ids`, lines 88–91: `ids = list(seen)[-2000:]` — the writer
keeps the last 2000 elements of the set's enumeration `enum` (Python's
`[-2000:]` is the whole list when it has ≤ 2000 elements, which is
`List.drop` with truncated subtraction).  The file write itself is I/O;
the value modelled here is exactly the JSON array written. -/
def save_seen_ids (enum : List String) : List String :=
  enum.drop (enum.length - 2000)

/-! ## Post-id extraction (`parse_rss`, lines 161–163) -/

/-- Character class `[a-z0-9]` of the two id-extraction regexes. -/
def isIdChar (c : Char) : Bool :=
  (('a' ≤ c) && (c ≤ 'z')) || (('0' ≤ c) && (c ≤ '9'))

/-- `re.search(r"t3_([a-z0-9]+)", s)`: scan left to right; at the first
position where the literal `t3_` is followed by a non-empty run of
`[a-z0-9]` characters, return that (maximal, as `+` is greedy) run. -/
def searchT3 (s : List Char) : Option (List Char) :=
  match s with
  | [] => none
  | _ :: rest =>
    let run := (s.drop 3).takeWhile isIdChar
    if s.take 3 = ['t', '3', '_'] && !run.isEmpty then some run
    else searchT3 rest

/-- `re.search(r"/comments/([a-z0-9]+)/", s)`: scan left to right; at the
first position where the literal `/comments/` is followed by a non-empty
run of `[a-z0-9]` characters and then a `/`, return that run.  (Greedy
backtracking cannot produce a shorter run: shortening the run leaves an
id character, never `/`, in front.) -/
def searchComments (s : List Char) : Option (List Char) :=
  match s with
  | [] => none
  | _ :: rest =>
    let run := (s.drop 10).takeWhile isIdChar
    if s.take 10 = ['/', 'c', 'o', 'm', 'm', 'e', 'n', 't', 's', '/']
        && !run.isEmpty && ((s.drop 10).drop run.length).take 1 = ['/'] then
      some run
    else searchComments rest

/-- Python `s[-8:]`. -/
def lastEight (s : String) : String :=
  ⟨s.data.drop (s.data.length - 8)⟩

/-- Lines 161–163 of `parse_rss`:
`m = re.search(r"t3_([a-z0-9]+)", id_raw) or re.search(r"/comments/([a-z0-9]+)/", url)`;
`post_id = m.group(1) if m else id_raw[-8:] or str(time.time())`.
`nowStr` stands for `str(time.time())`; Python's `or` falls through to it
exactly when `id_raw[-8:]` is the empty string, i.e. when `id_raw = ""`. -/
def extract_post_id (id_raw url nowStr : String) : String :=
  match searchT3 id_raw.data with
  | some g => ⟨g⟩
  | none =>
    match searchComments url.data with
    | some g => ⟨g⟩
    | none => if id_raw = "" then nowStr else lastEight id_raw

/-! ## Match filter -/

/-- Python `str.lower()` (ASCII range; all configured keywords and the
exclusion term are ASCII). -/
def pyLower (s : String) : String :=
  ⟨s.data.map Char.toLower⟩

/-- The word class `\w` = `[a-zA-Z0-9_]` underlying `\b`. -/
def isWordChar (c : Char) : Bool :=
  c.isAlphanum || c == '_'

/-- A `\b` boundary on the side of a character `prev` (absent `prev` is the
string edge, always a boundary). -/
def boundaryOk (prev : Option Char) : Bool :=
  match prev with
  | none => true
  | some c => !isWordChar c

/-- The character preceding the current scan position: the last of the
consumed prefix `pre`, else the character that preceded `pre`. -/
def prevOf (prev : Option Char) : List Char → Option Char
  | [] => prev
  | c :: rest => prevOf (some c) rest

/-- A `\b` boundary against the characters following a candidate match:
the remainder is empty or starts with a non-word character. -/
def nextOk (post : List Char) : Bool :=
  match post.head? with
  | none => true
  | some d => !isWordChar d

/-- `re.search(r"\bsold\b", text)`: scan with the preceding character in
hand; succeed where `sold` appears with non-word (or absent) neighbours. -/
def searchWordSold (prev : Option Char) (s : List Char) : Bool :=
  match s with
  | [] => false
  | c :: rest =>
    if s.take 4 = ['s', 'o', 'l', 'd'] && boundaryOk prev && nextOk (s.drop 4) then
      true
    else searchWordSold (some c) rest

/-- `is_sold`, lines 180–184.  The module-level flag `FILTER_SOLD` is
passed explicitly. -/
def is_sold (FILTER_SOLD : Bool) (p : Post) : Bool :=
  if !FILTER_SOLD then false
  else searchWordSold none (pyLower (p.title ++ " " ++ p.content)).data

/-- `needle` is a prefix of `hay` (character-wise). -/
def leadsWith : List Char → List Char → Bool
  | [], _ => true
  | _ :: _, [] => false
  | c :: t, d :: u => c == d && leadsWith t u

/-- Python's `needle in hay` substring test. -/
def occursIn (needle hay : List Char) : Bool :=
  match hay with
  | [] => needle.isEmpty
  | _ :: rest => leadsWith needle hay || occursIn needle rest

/-- `match_keywords`, lines 187–189.  The module-level list `KEYWORDS` is
passed explicitly. -/
def match_keywords (KEYWORDS : List String) (p : Post) : List String :=
  let text := pyLower (p.title ++ " " ++ p.content)
  KEYWORDS.filter (fun kw => occursIn (pyLower kw).data text.data)

/-- The configured keyword list, lines 36–44. -/
def KEYWORDS : List String :=
  ["pachanoi", "bridgesii", "peruvianus", "trichocereus", "san pedro",
   "crest", "variegata"]

/-! ## Poll-cycle controller (`check`, lines 274–353) -/

/-- The in-window test of the lookback branch (lines 296–302): keep an
entry when its timestamp parses to a time at or after the cutoff, and
also — `except: in_window.append(p)` — when it does not parse at all. -/
def inWindowPred (parseTs : String → Option Int) (c : Int) (p : Post) : Bool :=
  match parseTs p.published with
  | some t => decide (t ≥ c)
  | none => true

/-- `oldest_t` (lines 305–311): the parsed timestamp of the page's last
entry, with the `except` branch turning any parse failure into `0`. -/
def oldestTime (parseTs : String → Option Int) (posts : List Post) : Int :=
  match posts.getLast? with
  | some p =>
    match parseTs p.published with
    | some t => t
    | none => 0
  | none => 0  -- unreachable on a non-empty page

/-- The id of the page's last entry, used for the next cursor
(line 315: `after = "t3_" + posts[-1]["id"]`). -/
def lastId (posts : List Post) : String :=
  match posts.getLast? with
  | some p => p.id
  | none => ""  -- unreachable on a non-empty page

/-- The `while True` pagination loop of `check` (lines 286–319), on fuel.
Returns `(all_new_posts, fetch trace)` when it reaches a `break`, `none`
when fuel runs out first.  `trace` records the cursor of every
`fetch_posts` call made so far.  The `cutoff` truthiness test
`if cutoff:` is false both for `None` and for the float `0.0`. -/
def checkLoop (feed : Option String → List Post) (parseTs : String → Option Int)
    (seen : List String) (cutoff : Option Int) :
    Nat → Option String → List Post → List (Option String) →
    Option (List Post × List (Option String))
  | 0, _, _, _ => none
  | fuel + 1, after, acc, trace =>
    let posts := feed after
    let trace := trace ++ [after]
    if posts.isEmpty then some (acc, trace)
    else
      let new_posts := posts.filter (fun p => !seen.contains p.id)
      match cutoff with
      | some c =>
        if c = 0 then
          -- `if cutoff:` is false for 0.0: the no-lookback branch runs
          some (acc ++ new_posts, trace)
        else
          let in_window := new_posts.filter (inWindowPred parseTs c)
          let acc := acc ++ in_window
          let oldest_t : Int := oldestTime parseTs posts
          if oldest_t < c || posts.length < 25 then some (acc, trace)
          else
            checkLoop feed parseTs seen cutoff fuel
              (some ("t3_" ++ lastId posts)) acc trace
      | none => some (acc ++ new_posts, trace)

/-- Result of one completed `check` cycle: the accumulated new posts, the
matches (with their matched keywords), the updated in-memory seen set
(insertion-ordered carrier) that is handed to `save_seen_ids`, and the
trace of every `fetch_posts` cursor used (loop fetches then the
unconditional re-fetch `fetch_posts()` = cursor `none`). -/
structure CheckResult where
  newPosts : List Post
  matched : List (Post × List String)  -- the source's `matches` (a Lean keyword)
  seen : List String
  fetchTrace : List (Option String)
deriving DecidableEq, Repr

/-- `check`, lines 274–353, up to the point where the side effects
(`save_seen_ids`, printing, comment-count enrichment, e-mail) take over.
After the loop, lines 321–327 re-fetch the first page and mark every
fetched and every accumulated id as seen; lines 332–341 build `matches`
by skipping sold posts and keeping posts with at least one keyword. -/
def check (feed : Option String → List Post) (parseTs : String → Option Int)
    (fuel : Nat) (FILTER_SOLD : Bool) (KEYWORDS : List String)
    (seen0 : List String) (cutoff : Option Int) : Option CheckResult :=
  match checkLoop feed parseTs seen0 cutoff fuel none [] [] with
  | none => none
  | some (all_new_posts, trace) =>
    let all_fetched := feed none
    let seen1 := all_fetched.foldl (fun s p => setAdd s p.id) seen0
    let seen2 := all_new_posts.foldl (fun s p => setAdd s p.id) seen1
    let matched := all_new_posts.filterMap (fun p =>
      if is_sold FILTER_SOLD p then none
      else
        match match_keywords KEYWORDS p with
        | [] => none
        | kws => some (p, kws))
    some ⟨all_new_posts, matched, seen2, trace ++ [none]⟩

/-! ## Shared helper lemmas -/

theorem contains_iff_mem (l : List String) (x : String) :
    l.contains x = true ↔ x ∈ l :=
  List.elem_iff

theorem mem_setAdd_self (s : List String) (x : String) : x ∈ setAdd s x := by
  unfold setAdd
  split
  · exact (contains_iff_mem s x).mp (by assumption)
  · simp

theorem mem_setAdd_of_mem (s : List String) (x y : String) (h : x ∈ s) :
    x ∈ setAdd s y := by
  unfold setAdd
  split
  · exact h
  · exact List.mem_append_left _ h

theorem mem_foldl_setAdd_of_mem (l : List Post) (s : List String) (x : String)
    (h : x ∈ s) : x ∈ l.foldl (fun s p => setAdd s p.id) s := by
  induction l generalizing s with
  | nil => exact h
  | cons a t ih => exact ih _ (mem_setAdd_of_mem _ _ _ h)

theorem mem_foldl_setAdd_self (l : List Post) (s : List String) (p : Post)
    (h : p ∈ l) : p.id ∈ l.foldl (fun s p => setAdd s p.id) s := by
  induction l generalizing s with
  | nil => cases h
  | cons a t ih =>
    rcases List.mem_cons.mp h with rfl | hmem
    · exact mem_foldl_setAdd_of_mem t (setAdd s p.id) p.id (mem_setAdd_self s p.id)
    · exact ih (setAdd s a.id) hmem

/-! ## C2 — the persisted set never exceeds 2000 ids -/

/-- **C2.** `save_seen_ids` truncates every enumeration of the seen set to
at most 2000 identifiers before writing, whatever its size; hence after
any number of poll cycles the persisted file holds at most 2000 ids. -/
theorem save_seen_ids_bounded (enum : List String) :
    (save_seen_ids enum).length ≤ 2000 := by
  simp only [save_seen_ids, List.length_drop]
  omega

/-! ## C3 — which 2000 ids survive truncation -/

/-- First-inserted identifier of the C3 counterexample set. -/
def oldestId : String := "a0"

/-- 2000 further identifiers (pairwise distinct, none equal to
`oldestId`), inserted after `oldestId`. -/
def recentIds : List String :=
  (List.range 2000).map (fun n => ⟨List.replicate (n + 1) 'b'⟩)

/-- The seen set in insertion order: `oldestId` went in first. -/
def insOrder : List String := oldestId :: recentIds

/-- A possible `list(seen)` enumeration of the same set: Python's `set`
guarantees no iteration order, so the first-inserted id may well be
enumerated last. -/
def advEnum : List String := recentIds ++ [oldestId]

theorem oldestId_not_mem_recentIds : oldestId ∉ recentIds := by
  intro h
  rcases List.mem_map.mp h with ⟨n, -, hn⟩
  have h2 := congrArg String.data hn
  rw [List.replicate] at h2
  simp only [oldestId] at h2
  exact absurd (List.head_eq_of_cons_eq h2) (by decide)

theorem recentIds_length : recentIds.length = 2000 := by
  simp [recentIds]

theorem recentIds_nodup : recentIds.Nodup := by
  refine List.Nodup.map ?_ (List.nodup_range 2000)
  intro a b h
  have h2 := congrArg String.data h
  have h3 := congrArg List.length h2
  simpa using h3

/-- **C3, counterexample.** The claim fails on the code: `list(seen)` is
an arbitrary enumeration of a Python `set`, not its insertion order, so
`save_seen_ids` need not keep the most-recently-inserted 2000 ids.  For
the 2001-element set inserted in order `insOrder`, the enumeration
`advEnum` (a permutation of the same elements) makes the writer keep the
first-inserted id `"a0"` and drop a recently inserted one. -/
theorem save_seen_ids_not_most_recent :
    insOrder.Nodup ∧ advEnum.Perm insOrder ∧ 2000 < insOrder.length ∧
    save_seen_ids advEnum ≠ insOrder.drop (insOrder.length - 2000) := by
  have hlen : insOrder.length = 2001 := by
    simp [insOrder, recentIds_length]
  refine ⟨List.nodup_cons.mpr ⟨oldestId_not_mem_recentIds, recentIds_nodup⟩,
    ?_, by omega, ?_⟩
  · unfold advEnum insOrder
    rw [← List.singleton_append]
    exact List.perm_append_comm
  · intro h
    have hdrop : insOrder.drop (insOrder.length - 2000) = recentIds := by
      rw [hlen]
      unfold insOrder
      rfl
    have hsave : save_seen_ids advEnum = recentIds.drop 1 ++ [oldestId] := by
      have hlen2 : advEnum.length = 2001 := by
        simp [advEnum, recentIds_length]
      unfold save_seen_ids
      rw [hlen2]
      unfold advEnum
      rw [show (2001 - 2000 : Nat) = 1 from rfl]
      exact List.drop_append_of_le_length (by rw [recentIds_length]; omega)
    rw [hsave, hdrop] at h
    have : oldestId ∈ recentIds := by
      rw [← h]
      exact List.mem_append_right _ (List.mem_singleton.mpr rfl)
    exact oldestId_not_mem_recentIds this

/-- **C3, amended.** When the enumeration of the seen set holds more than
2000 ids, `save_seen_ids` keeps exactly 2000 of them — the final segment
(suffix) of the set's enumeration order.  Since a Python `set` iterates
in no specified order, these are *not* necessarily the most-recently
inserted ids. -/
theorem save_seen_ids_keeps_enum_suffix (enum : List String)
    (h : 2000 < enum.length) :
    (save_seen_ids enum).length = 2000 ∧ save_seen_ids enum <:+ enum := by
  constructor
  · simp only [save_seen_ids, List.length_drop]
    omega
  · exact List.drop_suffix _ _

/-- Witness for `save_seen_ids_keeps_enum_suffix` at the concrete
2001-element enumeration `advEnum`. -/
theorem save_seen_ids_keeps_enum_suffix_witness :
    2000 < advEnum.length ∧
    ((save_seen_ids advEnum).length = 2000 ∧ save_seen_ids advEnum <:+ advEnum) :=
  have h : 2000 < advEnum.length := by simp [advEnum, recentIds_length]
  ⟨h, save_seen_ids_keeps_enum_suffix advEnum h⟩

/-! ## C1 — previously seen entries never reappear -/

theorem not_mem_of_contains_false {l : List String} {x : String}
    (h : l.contains x = false) : x ∉ l := fun hm => by
  rw [(contains_iff_mem l x).mpr hm] at h
  cases h

/-- Every post accumulated by the pagination loop was either already in
the accumulator or has an id outside the seen set: both the lookback
branch and the single-page branch start from
`posts.filter (fun p => !seen.contains p.id)`. -/
theorem checkLoop_acc_or_unseen (feed : Option String → List Post)
    (parseTs : String → Option Int) (seen : List String) (cutoff : Option Int) :
    ∀ (fuel : Nat) (after : Option String) (acc : List Post)
      (trace : List (Option String)) (out : List Post × List (Option String)),
      checkLoop feed parseTs seen cutoff fuel after acc trace = some out →
      ∀ p ∈ out.1, p ∈ acc ∨ seen.contains p.id = false := by
  intro fuel
  induction fuel with
  | zero =>
    intro after acc trace out h
    simp [checkLoop] at h
  | succ n ih =>
    intro after acc trace out h p hp
    simp only [checkLoop] at h
    split at h
    · cases h
      exact Or.inl hp
    · split at h
      · split at h
        · cases h
          rcases List.mem_append.mp hp with h1 | h2
          · exact Or.inl h1
          · exact Or.inr (by simpa using (List.mem_filter.mp h2).2)
        · split at h
          · cases h
            rcases List.mem_append.mp hp with h1 | h2
            · exact Or.inl h1
            · have h3 := (List.mem_filter.mp h2).1
              exact Or.inr (by simpa using (List.mem_filter.mp h3).2)
          · rcases ih _ _ _ _ h p hp with h1 | h2
            · rcases List.mem_append.mp h1 with h3 | h4
              · exact Or.inl h3
              · have h5 := (List.mem_filter.mp h4).1
                exact Or.inr (by simpa using (List.mem_filter.mp h5).2)
            · exact Or.inr h2
      · cases h
        rcases List.mem_append.mp hp with h1 | h2
        · exact Or.inl h1
        · exact Or.inr (by simpa using (List.mem_filter.mp h2).2)

/-- **C1.** In every completed cycle, for every lookback setting (cutoff
present or absent), an entry whose id lies in the seen set loaded at
cycle start appears neither among the cycle's accumulated new candidates
nor among its matches. -/
theorem check_seen_never_reappears (feed : Option String → List Post)
    (parseTs : String → Option Int) (fuel : Nat) (FILTER_SOLD : Bool)
    (KEYWORDS : List String) (seen0 : List String) (cutoff : Option Int)
    (r : CheckResult)
    (h : check feed parseTs fuel FILTER_SOLD KEYWORDS seen0 cutoff = some r) :
    (∀ p ∈ r.newPosts, p.id ∉ seen0) ∧ (∀ q ∈ r.matched, q.1.id ∉ seen0) := by
  unfold check at h
  cases hloop : checkLoop feed parseTs seen0 cutoff fuel none [] [] with
  | none =>
    rw [hloop] at h
    cases h
  | some out =>
    obtain ⟨anp, tr⟩ := out
    rw [hloop] at h
    dsimp only at h
    cases h
    constructor
    · intro p hp
      rcases checkLoop_acc_or_unseen feed parseTs seen0 cutoff fuel none [] []
          (anp, tr) hloop p hp with h1 | h2
      · exact absurd h1 (List.not_mem_nil p)
      · exact not_mem_of_contains_false h2
    · intro q hq
      rcases List.mem_filterMap.mp hq with ⟨a, ha, hfa⟩
      have hmem : q.1 ∈ anp := by
        split at hfa
        · simp at hfa
        · split at hfa
          · simp at hfa
          · cases hfa
            exact ha
      rcases checkLoop_acc_or_unseen feed parseTs seen0 cutoff fuel none [] []
          (anp, tr) hloop q.1 hmem with h1 | h2
      · exact absurd h1 (List.not_mem_nil _)
      · exact not_mem_of_contains_false h2

/-- Concrete data for witnesses: a one-post feed over the seen set `["x"]`. -/
def w1post : Post := ⟨"n1", "Pachanoi", "", "", "", ""⟩

def w1feed : Option String → List Post := fun _ => [w1post]

def w1res : CheckResult :=
  ⟨[w1post], [(w1post, ["pachanoi"])], ["x", "n1"], [none, none]⟩

/-- Witness for `check_seen_never_reappears`: a concrete completed cycle. -/
theorem check_seen_never_reappears_witness :
    (∀ p ∈ w1res.newPosts, p.id ∉ ["x"]) ∧
    (∀ q ∈ w1res.matched, q.1.id ∉ ["x"]) :=
  check_seen_never_reappears w1feed (fun _ => (none : Option Int)) 1 true
    KEYWORDS ["x"] none w1res (by decide)

/-! ## C4 — what the cycle marks as seen, and what survives persistence -/

/-- **C4, amended.** At the end of every completed cycle, for every
lookback setting, the first feed page has been re-fetched unconditionally
(the fetch trace ends with the cursorless fetch) and every id of that
page, as well as every accumulated new entry's id, is in the updated
in-memory seen set handed to persistence.  All those ids reach the
persisted file whenever the updated set holds at most 2000 ids; beyond
that cap the truncation works on the set's unspecified enumeration order
and may drop any id (see the counterexample). -/
theorem check_marks_seen (feed : Option String → List Post)
    (parseTs : String → Option Int) (fuel : Nat) (FILTER_SOLD : Bool)
    (KEYWORDS : List String) (seen0 : List String) (cutoff : Option Int)
    (r : CheckResult)
    (h : check feed parseTs fuel FILTER_SOLD KEYWORDS seen0 cutoff = some r) :
    r.fetchTrace.getLast? = some none ∧
    (∀ p ∈ feed none, p.id ∈ r.seen) ∧
    (∀ p ∈ r.newPosts, p.id ∈ r.seen) ∧
    (∀ enum, enum.Perm r.seen → r.seen.length ≤ 2000 →
      ∀ x ∈ r.seen, x ∈ save_seen_ids enum) := by
  unfold check at h
  cases hloop : checkLoop feed parseTs seen0 cutoff fuel none [] [] with
  | none =>
    rw [hloop] at h
    cases h
  | some out =>
    obtain ⟨anp, tr⟩ := out
    rw [hloop] at h
    dsimp only at h
    cases h
    refine ⟨?_, ?_, ?_, ?_⟩
    · simp
    · intro p hp
      exact mem_foldl_setAdd_of_mem _ _ _ (mem_foldl_setAdd_self _ _ _ hp)
    · intro p hp
      exact mem_foldl_setAdd_self _ _ _ hp
    · intro enum hperm hlen x hx
      have hzero : enum.length - 2000 = 0 := by
        have := hperm.length_eq
        omega
      unfold save_seen_ids
      rw [hzero, List.drop_zero]
      exact hperm.mem_iff.mpr hx

/-- Witness for `check_marks_seen`: the same concrete cycle as C1's. -/
theorem check_marks_seen_witness :
    (w1res.fetchTrace.getLast? = some none) ∧
    (∀ p ∈ w1feed none, p.id ∈ w1res.seen) ∧
    (∀ p ∈ w1res.newPosts, p.id ∈ w1res.seen) ∧
    (∀ enum, enum.Perm w1res.seen → w1res.seen.length ≤ 2000 →
      ∀ x ∈ w1res.seen, x ∈ save_seen_ids enum) :=
  check_marks_seen w1feed (fun _ => (none : Option Int)) 1 true
    KEYWORDS ["x"] none w1res (by decide)

/-- A seen set already at the 2000-id cap. -/
def c4seen0 : List String := (List.range 2000).map (fun n => "b" ++ Nat.repr n)

/-- A fresh first-page post, not in `c4seen0`. -/
def c4post : Post := ⟨"zz", "t", "", "", "", ""⟩

def c4feed : Option String → List Post := fun _ => [c4post]

/-- The completed cycle's result on that input. -/
def c4res : CheckResult := ⟨[c4post], [], c4seen0 ++ ["zz"], [none, none]⟩

/-- A possible `list(seen)` enumeration of the updated set that lists
the fresh id first: Python's `set` guarantees no iteration order. -/
def c4enum : List String := "zz" :: c4seen0

theorem zz_not_mem_c4seen0 : "zz" ∉ c4seen0 := by
  intro h
  rcases List.mem_map.mp h with ⟨n, -, hn⟩
  have h2 := congrArg String.data hn
  rw [String.data_append] at h2
  have h3 : ('b' :: (Nat.repr n).data) = ['z', 'z'] := h2
  exact absurd (List.head_eq_of_cons_eq h3) (by decide)

theorem c4_check_eq :
    check c4feed (fun _ => (none : Option Int)) 2 true [] c4seen0 none
      = some c4res := by
  have hloop : checkLoop c4feed (fun _ => (none : Option Int)) c4seen0 none
      2 none [] [] = some ([c4post], [none]) := by
    simp [checkLoop, c4feed, c4post, zz_not_mem_c4seen0]
  have hs1 : setAdd c4seen0 "zz" = c4seen0 ++ ["zz"] := by
    simp [setAdd, zz_not_mem_c4seen0]
  have hm : ("zz" : String) ∈ c4seen0 ++ ["zz"] :=
    List.mem_append_right _ (List.mem_singleton.mpr rfl)
  have hs2 : setAdd (c4seen0 ++ ["zz"]) "zz" = c4seen0 ++ ["zz"] := by
    simp [setAdd, hm]
  have hsold : is_sold true c4post = false := by decide
  unfold check
  rw [hloop]
  dsimp only [c4feed]
  simp [c4res, c4post, hsold, match_keywords, hs1, hs2]

/-- **C4, counterexample.** The claim's "present in the persisted
SeenSet" fails once the updated set exceeds the 2000-id cap: starting
from a full 2000-id seen set, a cycle that discovers one fresh first-page
post `"zz"` completes with `"zz"` in the in-memory set, yet under the
enumeration `c4enum` (a permutation of that set — legitimate, since a
Python `set` iterates in no specified order) `save_seen_ids` drops
`"zz"` from the persisted file. -/
theorem check_persisted_can_drop_fresh_id :
    check c4feed (fun _ => (none : Option Int)) 2 true [] c4seen0 none
      = some c4res
    ∧ "zz" ∈ (c4feed none).map Post.id
    ∧ "zz" ∈ c4res.seen
    ∧ c4enum.Perm c4res.seen
    ∧ "zz" ∉ save_seen_ids c4enum := by
  refine ⟨c4_check_eq, by simp [c4feed, c4post], ?_, ?_, ?_⟩
  · exact List.mem_append_right _ (List.mem_singleton.mpr rfl)
  · show ("zz" :: c4seen0).Perm (c4seen0 ++ ["zz"])
    rw [← List.singleton_append]
    exact List.perm_append_comm
  · have hl : c4enum.length = 2001 := by
      simp [c4enum, c4seen0]
    have hsave : save_seen_ids c4enum = c4seen0 := by
      unfold save_seen_ids
      rw [hl]
      rfl
    rw [hsave]
    exact zz_not_mem_c4seen0

/-! ## C6 — post-id extraction precedence -/

/-- If a string decomposes around the literal `t3_` followed by a
non-empty run of id characters, the `t3_` regex search succeeds. -/
theorem searchT3_some_of_decomp :
    ∀ (pre g post : List Char), g ≠ [] → (∀ c ∈ g, isIdChar c = true) →
      ∀ s, s = pre ++ ['t', '3', '_'] ++ g ++ post →
      ∃ g', searchT3 s = some g' := by
  intro pre
  induction pre with
  | nil =>
    intro g post hg hid s hs
    obtain ⟨gh, gt, rfl⟩ : ∃ gh gt, g = gh :: gt := by
      cases g with
      | nil => exact absurd rfl hg
      | cons a b => exact ⟨a, b, rfl⟩
    have hgh : isIdChar gh = true := hid gh (by simp)
    subst hs
    simp only [List.nil_append, List.cons_append]
    simp only [searchT3]
    refine ⟨gh :: (gt ++ post).takeWhile isIdChar, ?_⟩
    simp [List.takeWhile_cons_of_pos hgh]
  | cons c pre' ih =>
    intro g post hg hid s hs
    subst hs
    simp only [List.cons_append]
    simp only [searchT3]
    split
    · exact ⟨_, rfl⟩
    · exact ih g post hg hid _ rfl

/-- **C6.** `parse_rss` derives each post id with fixed precedence:
a `t3_`-pattern in the opaque id wins over everything (whatever the URL
holds), else a `/comments/<id>/` pattern in the URL, else the last 8
characters of the opaque id, else the synthetic time-derived identifier;
concretely, opaque id `t3_abc123` yields `abc123` even though the URL
carries the different pattern `/comments/zzz999/`. -/
theorem parse_rss_id_precedence :
    (∀ (id_raw url nowStr : String) (pre g post : List Char),
        id_raw.data = pre ++ ['t', '3', '_'] ++ g ++ post → g ≠ [] →
        (∀ c ∈ g, isIdChar c = true) →
        ∃ g', searchT3 id_raw.data = some g'
          ∧ extract_post_id id_raw url nowStr = ⟨g'⟩)
    ∧ (∀ (id_raw url nowStr : String) (g : List Char),
        searchT3 id_raw.data = none → searchComments url.data = some g →
        extract_post_id id_raw url nowStr = ⟨g⟩)
    ∧ (∀ (id_raw url nowStr : String),
        searchT3 id_raw.data = none → searchComments url.data = none →
        id_raw ≠ "" → extract_post_id id_raw url nowStr = lastEight id_raw)
    ∧ (∀ (url nowStr : String), searchComments url.data = none →
        extract_post_id "" url nowStr = nowStr)
    ∧ extract_post_id "t3_abc123" "https://reddit.com/r/x/comments/zzz999/t/"
        "1700000000.0" = "abc123" := by
  refine ⟨?_, ?_, ?_, ?_, by decide⟩
  · intro id_raw url nowStr pre g post hdec hg hid
    rcases searchT3_some_of_decomp pre g post hg hid id_raw.data hdec with ⟨g', hg'⟩
    refine ⟨g', hg', ?_⟩
    unfold extract_post_id
    rw [hg']
  · intro id_raw url nowStr g h1 h2
    unfold extract_post_id
    rw [h1, h2]
  · intro id_raw url nowStr h1 h2 h3
    unfold extract_post_id
    rw [h1, h2]
    simp [h3]
  · intro url nowStr h2
    unfold extract_post_id
    rw [show searchT3 "".data = none from rfl, h2]
    simp

/-- Witness for `parse_rss_id_precedence`: its first branch applied at a
concrete opaque id and URL. -/
theorem parse_rss_id_precedence_witness :
    ("t3_xy".data = [] ++ ['t', '3', '_'] ++ ['x', 'y'] ++ []) ∧
    (['x', 'y'] ≠ ([] : List Char)) ∧ (∀ c ∈ ['x', 'y'], isIdChar c = true) ∧
    (∃ g', searchT3 "t3_xy".data = some g'
      ∧ extract_post_id "t3_xy" "https://e/comments/qq1/a/" "now" = ⟨g'⟩) :=
  ⟨by decide, by decide, by decide,
   parse_rss_id_precedence.1 "t3_xy" "https://e/comments/qq1/a/" "now"
     [] ['x', 'y'] [] (by decide) (by decide) (by decide)⟩

/-! ## C7 — whole-word "sold" exclusion -/

/-- Declarative reading of `\bsold\b` (from the spec's wording): the
word `sold` occurs somewhere with a word boundary on each side: the
character before it (last of `pre`, if any) and the character after it
(head of `post`, if any) are not word characters. -/
def WordOccursSold (s : List Char) : Prop :=
  ∃ pre post, s = pre ++ ['s', 'o', 'l', 'd'] ++ post ∧
    boundaryOk (prevOf none pre) = true ∧ nextOk post = true

/-- The scanner `searchWordSold` agrees with the declarative boundary
condition, for any carried previous character. -/
theorem searchWordSold_iff :
    ∀ (s : List Char) (prev : Option Char),
      searchWordSold prev s = true ↔
        ∃ pre post, s = pre ++ ['s', 'o', 'l', 'd'] ++ post ∧
          boundaryOk (prevOf prev pre) = true ∧ nextOk post = true := by
  intro s
  induction s with
  | nil =>
    intro prev
    simp only [searchWordSold]
    constructor
    · intro h
      cases h
    · rintro ⟨pre, post, h, -, -⟩
      cases pre <;> simp at h
  | cons c rest ih =>
    intro prev
    simp only [searchWordSold]
    split
    · rename_i hT
      simp only [Bool.and_eq_true] at hT
      obtain ⟨⟨h1, h2⟩, h3⟩ := hT
      have h1' := of_decide_eq_true h1
      constructor
      · intro _
        refine ⟨[], (c :: rest).drop 4, ?_, h2, h3⟩
        conv_lhs => rw [← List.take_append_drop 4 (c :: rest)]
        rw [h1']
        simp
      · intro _
        rfl
    · rename_i hF
      rw [ih (some c)]
      constructor
      · rintro ⟨pre, post, heq, hb, hn⟩
        refine ⟨c :: pre, post, ?_, hb, hn⟩
        rw [heq]
        simp
      · rintro ⟨pre, post, heq, hb, hn⟩
        cases pre with
        | nil =>
          exfalso
          apply hF
          simp only [List.nil_append] at heq
          have htake : (c :: rest).take 4 = ['s', 'o', 'l', 'd'] := by
            rw [heq]
            rfl
          have hdrop : (c :: rest).drop 4 = post := by
            rw [heq]
            rfl
          have hb' : boundaryOk prev = true := hb
          rw [htake, hdrop]
          simp [hb', hn]
        | cons d pre' =>
          rw [List.cons_append] at heq
          injection heq with hcd hrest
          subst hcd
          exact ⟨pre', post, hrest, hb, hn⟩

/-- **C7.** `is_sold` returns true iff the exclusion flag is on and
`sold` occurs as a whole word (word boundaries on both sides) in the
case-folded concatenation of title and content; a post containing only
`consoled` is not excluded, a post containing `Sold - Pachanoi` is. -/
theorem is_sold_spec :
    (∀ (FILTER_SOLD : Bool) (p : Post),
        is_sold FILTER_SOLD p = true ↔
          FILTER_SOLD = true ∧
          WordOccursSold (pyLower (p.title ++ " " ++ p.content)).data)
    ∧ is_sold true ⟨"i1", "He consoled me", "", "", "", "about the console"⟩ = false
    ∧ is_sold true ⟨"i2", "Sold - Pachanoi", "", "", "", ""⟩ = true := by
  refine ⟨?_, by decide, by decide⟩
  intro FS p
  unfold is_sold
  cases FS with
  | false => simp
  | true =>
    rw [if_neg (by simp)]
    rw [searchWordSold_iff]
    unfold WordOccursSold
    simp

/-! ## C8 — keyword substring matching -/

theorem leadsWith_iff :
    ∀ (n h : List Char), leadsWith n h = true ↔ ∃ t, h = n ++ t := by
  intro n
  induction n with
  | nil =>
    intro h
    simp [leadsWith]
  | cons c nt ih =>
    intro h
    cases h with
    | nil => simp [leadsWith]
    | cons d ht =>
      simp only [leadsWith, Bool.and_eq_true, beq_iff_eq]
      rw [ih ht]
      constructor
      · rintro ⟨rfl, t, rfl⟩
        exact ⟨t, rfl⟩
      · rintro ⟨t, ht2⟩
        rw [List.cons_append] at ht2
        injection ht2 with h1 h2
        exact ⟨h1.symm, t, h2⟩

/-- The scanner `occursIn` is Python's substring test: it succeeds
exactly when the needle occurs contiguously inside the haystack. -/
theorem occursIn_iff : ∀ (needle hay : List Char),
    occursIn needle hay = true ↔ ∃ pre post, hay = pre ++ needle ++ post := by
  intro needle hay
  induction hay with
  | nil =>
    simp only [occursIn]
    rw [List.isEmpty_iff]
    constructor
    · rintro rfl
      exact ⟨[], [], rfl⟩
    · rintro ⟨pre, post, h⟩
      rcases List.append_eq_nil.mp h.symm with ⟨h1, h2⟩
      rcases List.append_eq_nil.mp h1 with ⟨h3, h4⟩
      exact h4
  | cons c rest ih =>
    simp only [occursIn, Bool.or_eq_true]
    rw [leadsWith_iff, ih]
    constructor
    · rintro (⟨t, ht⟩ | ⟨pre, post, hp⟩)
      · exact ⟨[], t, by simp [ht]⟩
      · exact ⟨c :: pre, post, by rw [hp]; simp⟩
    · rintro ⟨pre, post, hp⟩
      cases pre with
      | nil =>
        left
        exact ⟨post, by simpa using hp⟩
      | cons d pre' =>
        right
        rw [List.cons_append] at hp
        injection hp with h1 h2
        exact ⟨pre', post, h2⟩

/-- **C8.** `match_keywords` returns exactly the configured keywords
that occur (case-folded) as substrings of the case-folded concatenation
of title and content, in configured order (the result is a sublist of
the keyword list); the empty result means no keyword occurs; the post
titled "Trichocereus Pachanoi for sale" matches keyword "pachanoi". -/
theorem match_keywords_spec :
    (∀ (KW : List String) (p : Post) (kw : String),
        kw ∈ match_keywords KW p ↔
          kw ∈ KW ∧ ∃ pre post,
            (pyLower (p.title ++ " " ++ p.content)).data
              = pre ++ (pyLower kw).data ++ post)
    ∧ (∀ (KW : List String) (p : Post), (match_keywords KW p).Sublist KW)
    ∧ (∀ (KW : List String) (p : Post),
        match_keywords KW p = [] ↔
          ∀ kw ∈ KW, ¬∃ pre post,
            (pyLower (p.title ++ " " ++ p.content)).data
              = pre ++ (pyLower kw).data ++ post)
    ∧ "pachanoi" ∈ match_keywords KEYWORDS
        ⟨"w", "Trichocereus Pachanoi for sale", "", "", "", ""⟩ := by
  refine ⟨?_, ?_, ?_, by decide⟩
  · intro KW p kw
    simp only [match_keywords]
    rw [List.mem_filter, occursIn_iff]
  · intro KW p
    exact List.filter_sublist _
  · intro KW p
    simp only [match_keywords]
    rw [List.filter_eq_nil_iff]
    simp only [occursIn_iff]

/-! ## C5 — lookback pagination: two pages and the halting conditions -/

/-- Two iterations of the pagination loop under an active cutoff: the
first page is full (25 entries) and its oldest entry is at or after the
cutoff, so the loop advances the cursor to `t3_` + the oldest entry's id
and fetches once more; the second page's oldest entry is older than the
cutoff, so the loop stops.  Each page contributes its not-yet-seen
entries filtered by the in-window test. -/
theorem checkLoop_two_pages (feed : Option String → List Post)
    (parseTs : String → Option Int) (seen0 : List String) (c : Int)
    (fuel : Nat) (page1 page2 : List Post) (p1last p2last : Post) (t1 t2 : Int)
    (hc : c ≠ 0)
    (h1 : feed none = page1)
    (h1len : page1.length = 25)
    (h1last : page1.getLast? = some p1last)
    (hp1 : parseTs p1last.published = some t1)
    (ht1 : c ≤ t1)
    (h2 : feed (some ("t3_" ++ p1last.id)) = page2)
    (h2ne : page2.isEmpty = false)
    (h2last : page2.getLast? = some p2last)
    (hp2 : parseTs p2last.published = some t2)
    (ht2 : t2 < c) :
    checkLoop feed parseTs seen0 (some c) (fuel + 2) none [] []
      = some ((page1.filter (fun p => !seen0.contains p.id)).filter (inWindowPred parseTs c)
              ++ (page2.filter (fun p => !seen0.contains p.id)).filter (inWindowPred parseTs c),
              [none, some ("t3_" ++ p1last.id)]) := by
  have h1ne : page1.isEmpty = false := by
    cases hpg : page1 with
    | nil => rw [hpg] at h1len; cases h1len
    | cons a l => simp
  have hold1 : oldestTime parseTs page1 = t1 := by
    unfold oldestTime
    rw [h1last]
    dsimp only
    rw [hp1]
  have hold2 : oldestTime parseTs page2 = t2 := by
    unfold oldestTime
    rw [h2last]
    dsimp only
    rw [hp2]
  have hlid : lastId page1 = p1last.id := by
    unfold lastId
    rw [h1last]
  have step_cont : ∀ (n : Nat) (acc : List Post) (tr : List (Option String)),
      checkLoop feed parseTs seen0 (some c) (n + 1) none acc tr
        = checkLoop feed parseTs seen0 (some c) n (some ("t3_" ++ p1last.id))
            (acc ++ (page1.filter (fun p => !seen0.contains p.id)).filter
              (inWindowPred parseTs c)) (tr ++ [none]) := by
    intro n acc tr
    simp only [checkLoop]
    rw [h1, h1ne]
    simp only [Bool.false_eq_true, if_false]
    rw [if_neg hc, hold1, h1len, hlid]
    rw [if_neg (by simp; omega)]
  have step_stop : ∀ (n : Nat) (acc : List Post) (tr : List (Option String)),
      checkLoop feed parseTs seen0 (some c) (n + 1) (some ("t3_" ++ p1last.id)) acc tr
        = some (acc ++ (page2.filter (fun p => !seen0.contains p.id)).filter
            (inWindowPred parseTs c), tr ++ [some ("t3_" ++ p1last.id)]) := by
    intro n acc tr
    simp only [checkLoop]
    rw [h2, h2ne]
    simp only [Bool.false_eq_true, if_false]
    rw [if_neg hc, hold2]
    rw [if_pos (by simp; omega)]
  rw [show fuel + 2 = (fuel + 1) + 1 from rfl]
  rw [step_cont (fuel + 1) [] []]
  rw [step_stop fuel _ _]
  simp

/-- **C5.** With an active lookback cutoff falling between the
timestamps of page 2 and page 3 (page 1 is full and entirely at or after
the cutoff's side, page 2's oldest entry is older than the cutoff), a
completed cycle fetches exactly two pages in the loop — cursor `none`,
then cursor `t3_` + page 1's oldest entry id — plus the one unconditional
first-page re-fetch, and accumulates exactly the not-yet-seen entries of
those two pages whose published time is at or after the cutoff. -/
theorem check_lookback_scenario (feed : Option String → List Post)
    (parseTs : String → Option Int) (FILTER_SOLD : Bool) (KEYWORDS : List String)
    (seen0 : List String) (c : Int) (fuel : Nat)
    (page1 page2 : List Post) (p1last p2last : Post) (tP : Post → Int)
    (hc : c ≠ 0)
    (htP : ∀ p ∈ page1 ++ page2, parseTs p.published = some (tP p))
    (h1 : feed none = page1)
    (h1len : page1.length = 25)
    (h1last : page1.getLast? = some p1last)
    (ht1 : c ≤ tP p1last)
    (h2 : feed (some ("t3_" ++ p1last.id)) = page2)
    (h2ne : page2.isEmpty = false)
    (h2last : page2.getLast? = some p2last)
    (ht2 : tP p2last < c) :
    ∃ r, check feed parseTs (fuel + 2) FILTER_SOLD KEYWORDS seen0 (some c) = some r
      ∧ r.fetchTrace = [none, some ("t3_" ++ p1last.id), none]
      ∧ r.newPosts
          = page1.filter (fun p => !seen0.contains p.id && decide (tP p ≥ c))
          ++ page2.filter (fun p => !seen0.contains p.id && decide (tP p ≥ c)) := by
  have hp1 : parseTs p1last.published = some (tP p1last) :=
    htP p1last (List.mem_append_left _ (List.mem_of_mem_getLast? h1last))
  have hp2 : parseTs p2last.published = some (tP p2last) :=
    htP p2last (List.mem_append_right _ (List.mem_of_mem_getLast? h2last))
  have hloop := checkLoop_two_pages feed parseTs seen0 c fuel page1 page2
    p1last p2last (tP p1last) (tP p2last) hc h1 h1len h1last hp1 ht1 h2 h2ne
    h2last hp2 ht2
  have hfuse : ∀ (pg : List Post), (∀ p ∈ pg, parseTs p.published = some (tP p)) →
      (pg.filter (fun p => !seen0.contains p.id)).filter (inWindowPred parseTs c)
        = pg.filter (fun p => !seen0.contains p.id && decide (tP p ≥ c)) := by
    intro pg hpg
    rw [List.filter_filter]
    refine List.filter_congr ?_
    intro a ha
    unfold inWindowPred
    rw [hpg a ha]
    dsimp only
    rw [Bool.and_comm]
  unfold check
  rw [hloop]
  dsimp only
  refine ⟨_, rfl, rfl, ?_⟩
  rw [hfuse page1 (fun p hp => htP p (List.mem_append_left _ hp)),
      hfuse page2 (fun p hp => htP p (List.mem_append_right _ hp))]

/-- Concrete two-page feed for the C5 witness: page 1 carries times
200 … 176, page 2 times 100 … 76, and the cutoff 150 falls between the
pages.  Timestamps are encoded as the length of the `published` string
so that the parse function evaluates by plain reduction. -/
def w5post (n t : Nat) : Post :=
  ⟨"p" ++ Nat.repr n, "t", "", "", ⟨List.replicate t 'd'⟩, ""⟩

def w5page1 : List Post := (List.range 25).map (fun n => w5post n (200 - n))

def w5page2 : List Post := (List.range 25).map (fun n => w5post (25 + n) (100 - n))

def w5feed : Option String → List Post := fun cur =>
  match cur with
  | none => w5page1
  | some cu => if cu = "t3_" ++ lastId w5page1 then w5page2 else []

def w5parse : String → Option Int :=
  fun s => if s.data.isEmpty then none else some (Int.ofNat s.data.length)

def w5tP : Post → Int := fun p => Int.ofNat p.published.data.length

/-- Witness for `check_lookback_scenario` on the concrete two-page feed. -/
theorem check_lookback_scenario_witness :
    ∃ r, check w5feed w5parse 2 true KEYWORDS [] (some 150) = some r
      ∧ r.fetchTrace = [none, some ("t3_" ++ (w5post 24 176).id), none]
      ∧ r.newPosts
          = w5page1.filter (fun p => !([] : List String).contains p.id && decide (w5tP p ≥ 150))
          ++ w5page2.filter (fun p => !([] : List String).contains p.id && decide (w5tP p ≥ 150)) :=
  check_lookback_scenario w5feed w5parse true KEYWORDS [] 150 0 w5page1 w5page2
    (w5post 24 176) (w5post 49 76) w5tP (by decide) (by decide) rfl (by decide)
    (by decide) (by decide) (by decide) (by decide) (by decide) (by decide)

/-! ## C10 — unparseable timestamp of a page's oldest entry -/

/-- A 25-entry page whose entries all have an empty, unparseable
`published` field. -/
def c10post (n : Nat) : Post := ⟨"q" ++ Nat.repr n, "t", "", "", "", ""⟩

def c10page : List Post := (List.range 25).map c10post

def c10feed : Option String → List Post := fun _ => c10page

def c10parse : String → Option Int := fun s => s.toNat?.map Int.ofNat

/-- **C10, counterexample.** The claim says an unparseable oldest
timestamp is treated as "older than any cutoff", stopping pagination.
The code instead substitutes `0` for it, and `0` is *not* older than a
negative cutoff (lookback reaching before the Unix epoch): with active
cutoff `-1` and a full page whose oldest entry has an unparseable
timestamp, the loop never stops — five fuel steps are exhausted and the
cycle does not complete, where the claim predicts completion after one
loop fetch. -/
theorem check_unparseable_oldest_keeps_paginating :
    c10page.getLast? = some (c10post 24)
    ∧ c10parse (c10post 24).published = none
    ∧ ¬((-1 : Int) = 0)
    ∧ checkLoop c10feed c10parse [] (some (-1)) 5 none [] [] = none
    ∧ check c10feed c10parse 5 true [] [] (some (-1)) = none := by
  refine ⟨by decide, by decide, by decide, by decide, by decide⟩

/-- **C10, amended.** With an active *positive* cutoff — as every cutoff
computed from the real clock minus a lookback shorter than the
epoch-to-now span is — a page whose oldest entry has an unparseable
published timestamp gets oldest time `0`, which is older than the
cutoff, so pagination stops right after that page; the
unparseable-timestamp entry itself still passes the in-window test.  For
a non-positive active cutoff the substituted `0` is not older than the
cutoff and pagination would continue (see the counterexample). -/
theorem checkLoop_unparseable_oldest_stops (feed : Option String → List Post)
    (parseTs : String → Option Int) (seen : List String) (c : Int)
    (fuel : Nat) (after : Option String) (acc : List Post)
    (trace : List (Option String)) (pl : Post)
    (hc : 0 < c)
    (hlast : (feed after).getLast? = some pl)
    (hp : parseTs pl.published = none) :
    checkLoop feed parseTs seen (some c) (fuel + 1) after acc trace
      = some (acc ++ ((feed after).filter (fun p => !seen.contains p.id)).filter
          (inWindowPred parseTs c), trace ++ [after])
    ∧ inWindowPred parseTs c pl = true := by
  have hne : (feed after).isEmpty = false := by
    cases hfe : feed after with
    | nil => rw [hfe] at hlast; cases hlast
    | cons a l => simp
  have hold : oldestTime parseTs (feed after) = 0 := by
    unfold oldestTime
    rw [hlast]
    dsimp only
    rw [hp]
  constructor
  · simp only [checkLoop]
    rw [hne]
    simp only [Bool.false_eq_true, if_false]
    rw [if_neg (by omega : ¬c = 0)]
    rw [hold]
    rw [if_pos]
    simp only [Bool.or_eq_true, decide_eq_true_eq]
    exact Or.inl hc
  · unfold inWindowPred
    rw [hp]

/-- Witness for `checkLoop_unparseable_oldest_stops` at cutoff `1` over
the concrete unparseable-timestamp page. -/
theorem checkLoop_unparseable_oldest_stops_witness :
    (0 : Int) < 1 ∧ (c10feed none).getLast? = some (c10post 24) ∧
    c10parse (c10post 24).published = none ∧
    (checkLoop c10feed c10parse [] (some 1) 1 none [] []
      = some ([] ++ ((c10feed none).filter (fun p => !([] : List String).contains p.id)).filter
          (inWindowPred c10parse 1), [] ++ [none])
     ∧ inWindowPred c10parse 1 (c10post 24) = true) :=
  ⟨by decide, by decide, by decide,
   checkLoop_unparseable_oldest_stops c10feed c10parse [] 1 0 none [] [] (c10post 24)
     (by decide) (by decide) (by decide)⟩

end TrichoScout
